import Mathlib

/-!
Verification of the `pre-commit-hooks` commit-message validator
(`src/pre_commit_hooks/jira_ticket_check.py`).

Python strings are embedded as `List Char` (abbreviated `Str`); environment
variables as `Option Str` (`none` = unset); the network as a function from
request URL to an `HttpResult`; JSON bodies as a small inductive `Json`.
Exceptions that the script catches are embedded as `Option`/early-`Bool`
returns, and `sys.exit` as the returned exit code of `main`.
-/

/-- Python strings are modelled as lists of characters. -/
abbrev Str := List Char

/-- Coerce a Lean string literal to the `Str` embedding of a Python string. -/
def chars (s : String) : Str := s.data

/-- The regex class `[A-Z]`. -/
def isUpperAZ (c : Char) : Bool := decide ('A' ≤ c) && decide (c ≤ 'Z')

/-- The regex class `\d` (ASCII digits, as matched by `\d` on these inputs). -/
def isDigit09 (c : Char) : Bool := decide ('0' ≤ c) && decide (c ≤ '9')

/-- A word character for the purposes of the `\b` boundary assertion:
letters, digits or underscore (ASCII fragment of Python's `\w`). -/
def isWordChar (c : Char) : Bool := c.isAlpha || isDigit09 c || c == '_'

/-- Attempt to match `[A-Z]+-\d+\b` at the head of `l` (the leading `\b` is
checked by the caller `scanTickets`).  Greedily takes the maximal run of
uppercase letters, then a hyphen, then the maximal run of digits, then checks
the trailing word boundary.  Backtracking into the greedy runs can never
succeed for this pattern (a shorter `[A-Z]+` run is followed by an uppercase
letter, not `-`; a shorter `\d+` run is followed by a digit, which is a word
character, so `\b` fails), so this deterministic scan is faithful to
`re.findall` matching.  Returns the matched text and the remaining input. -/
def tryMatchTicket (l : Str) : Option (Str × Str) :=
  let p1 := l.span isUpperAZ
  if p1.1.isEmpty then none else
  match p1.2 with
  | '-' :: r2 =>
    let p2 := r2.span isDigit09
    if p2.1.isEmpty then none else
    match p2.2 with
    | [] => some (p1.1 ++ '-' :: p2.1, [])
    | c :: _ => if isWordChar c then none else some (p1.1 ++ '-' :: p2.1, p2.2)
  | _ => none

/-- Left-to-right non-overlapping scan of `re.findall(r"\b[A-Z]+-\d+\b", ·)`:
at each position whose preceding character is not a word character (the
leading `\b`), try to match a ticket; on success continue after the match
(its last character is a digit, a word character), otherwise advance one
character.  `fuel` only bounds the recursion; `length l + 1` always
suffices since every step consumes at least one character. -/
def scanTickets (fuel : Nat) (prevIsWord : Bool) (l : Str) : List Str :=
  match fuel, l with
  | 0, _ => []
  | _ + 1, [] => []
  | fuel + 1, c :: cs =>
    if !prevIsWord && isUpperAZ c then
      match tryMatchTicket (c :: cs) with
      | some (tick, rest) => tick :: scanTickets fuel true rest
      | none => scanTickets fuel (isWordChar c) cs
    else scanTickets fuel (isWordChar c) cs

/-- `ticket_regex.findall(commit_message)` for
`ticket_regex = re.compile(r"\b[A-Z]+-\d+\b")`. -/
def findall (l : Str) : List Str := scanTickets (l.length + 1) false l

/-- Minimal JSON values: enough to embed `response.json()` bodies and the
`issue["fields"]["status"]["name"]` traversal. -/
inductive Json where
  | str (s : Str)
  | num (n : Int)
  | obj (fields : List (Str × Json))
  | null

/-- Dictionary lookup `j[k]`; `none` embeds the `KeyError`/`TypeError` that
Python raises on a missing key or a non-object. -/
def Json.getField : Json → Str → Option Json
  | .obj fs, k => fs.lookup k
  | _, _ => none

/-- Coerce a JSON value to a string. -/
def Json.asStr : Json → Option Str
  | .str s => some s
  | _ => none

/-- Outcome of `requests.get(url, ...)`: either an HTTP response with a
status code and JSON body, or a raised connection error. -/
inductive HttpResult where
  | response (statusCode : Nat) (body : Json)
  | connError

/-- The network: what `requests.get` yields at each URL. -/
abbrev Http := Str → HttpResult

/-- The URL `f"{JIRA_URL}/rest/api/2/{endpoint}"` built by `jira_api_request`. -/
def apiUrl (jiraUrl endpoint : Str) : Str := jiraUrl ++ chars "/rest/api/2/" ++ endpoint

/-- `jira_api_request(endpoint)`: GET the URL; a connection error propagates
as an exception (`.error`), a non-200 status code raises
(`raise Exception(...)`, also `.error`), and a 200 response returns
its JSON body. -/
def jira_api_request (http : Http) (jiraUrl endpoint : Str) : Except Unit Json :=
  match http (apiUrl jiraUrl endpoint) with
  | .connError => .error ()
  | .response code body => if code ≠ 200 then .error () else .ok body

/-- The remote status of a ticket as `validate_jira_ticket` computes it:
`jira_api_request(f"issue/{ticket_id}")` followed by
`issue["fields"]["status"]["name"]`.  `none` embeds any exception raised on
the way (connection error, non-200 response, missing JSON field,
non-string name). -/
def fetchStatusName (http : Http) (jiraUrl ticket_id : Str) : Option Str :=
  match jira_api_request http jiraUrl (chars "issue/" ++ ticket_id) with
  | .error _ => none
  | .ok issue =>
    ((issue.getField (chars "fields")).bind
      (fun f => f.getField (chars "status"))).bind
      (fun st => (st.getField (chars "name")).bind Json.asStr)

/-- `validate_jira_ticket(ticket_id, valid_statuses)`: the `try` block fetches
the status name (any exception is caught and yields `False`); a ticket id
starting with `"CR-"` must have status exactly `"Approved"`; any other ticket
must have its status in `valid_statuses`. -/
def validate_jira_ticket (http : Http) (jiraUrl ticket_id : Str)
    (valid_statuses : List Str) : Bool :=
  match fetchStatusName http jiraUrl ticket_id with
  | none => false
  | some status_name =>
    if (chars "CR-").isPrefixOf ticket_id then
      status_name == chars "Approved"
    else
      valid_statuses.contains status_name

/-- Python truthiness of `os.getenv(...)`: `None` and the empty string are
falsy, any other string is truthy. -/
def envTruthy : Option Str → Bool
  | none => false
  | some s => !s.isEmpty

/-- `str.lower()` (ASCII fragment). -/
def pyLower (s : Str) : Str := s.map Char.toLower

/-- `CHANGE_REQUEST_REQUIRED = os.getenv("CHANGE_REQUEST_REQUIRED", "True").lower() in ("true", "1", "t")`. -/
def CHANGE_REQUEST_REQUIRED (envVal : Option Str) : Bool :=
  [chars "true", chars "1", chars "t"].contains (pyLower (envVal.getD (chars "True")))

set_option linter.unusedVariables false in
/-- The module-level configuration check
`if not JIRA_API_TOKEN or not JIRA_USERNAME: ... sys.exit(1)`: `true` means
the process exits with code 1 at import time, before any ticket work.  The
script reads `JIRA_URL` into a global but the check does not consult it. -/
def startupExitsFatally (jira_url jira_api_token jira_username : Option Str) : Bool :=
  !envTruthy jira_api_token || !envTruthy jira_username

/-- The list `valid_statuses = ["In Progress"]` set in `main`. -/
def valid_statuses : List Str := [chars "In Progress"]

/-- The URL requested when validating ticket `t`:
`{JIRA_URL}/rest/api/2/issue/{t}`. -/
def ticketUrl (jiraUrl t : Str) : Str := apiUrl jiraUrl (chars "issue/" ++ t)

/-- The `for ticket in tickets:` loop of `main` when
`change_request_required` is false: validate each ticket against
`valid_statuses`, calling `sys.exit(1)` at the first failure.  Returns
whether the loop ran to completion (`false` = exited 1 mid-loop) together
with the URLs requested, in order. -/
def loopNoCR (http : Http) (jiraUrl : Str) : List Str → Bool × List Str
  | [] => (true, [])
  | t :: ts =>
    if validate_jira_ticket http jiraUrl t valid_statuses then
      let r := loopNoCR http jiraUrl ts
      (r.1, ticketUrl jiraUrl t :: r.2)
    else (false, [ticketUrl jiraUrl t])

/-- The `for ticket in tickets:` loop of `main` when
`change_request_required` is true: a ticket starting with `"CR-"` sets
`cr_ticket_found` and is validated against `["Approved"]`, any other ticket
against `valid_statuses`; the first failure calls `sys.exit(1)`.  Returns
(loop ran to completion, final `cr_ticket_found`, URLs requested in order). -/
def loopCR (http : Http) (jiraUrl : Str) : List Str → Bool → Bool × Bool × List Str
  | [], crFound => (true, crFound, [])
  | t :: ts, crFound =>
    if (chars "CR-").isPrefixOf t then
      if validate_jira_ticket http jiraUrl t [chars "Approved"] then
        let r := loopCR http jiraUrl ts true
        (r.1, r.2.1, ticketUrl jiraUrl t :: r.2.2)
      else (false, true, [ticketUrl jiraUrl t])
    else
      if validate_jira_ticket http jiraUrl t valid_statuses then
        let r := loopCR http jiraUrl ts crFound
        (r.1, r.2.1, ticketUrl jiraUrl t :: r.2.2)
      else (false, crFound, [ticketUrl jiraUrl t])

/-- Observable outcome of a run of `main`: the process exit code and the
sequence of issue-service URLs that were requested, in order. -/
structure RunResult where
  exitCode : Nat
  lookups : List Str
deriving DecidableEq

/-- `main()`: `change_request_required` is the `--change-request-required`
flag or-ed with the `CHANGE_REQUEST_REQUIRED` environment setting; tickets
are extracted from the commit message with `re.findall(r"\b[A-Z]+-\d+\b", ·)`;
no ticket ⇒ exit 1; with the change-request policy active, fewer than two
extracted tickets ⇒ exit 1, then the CR loop runs and a missing CR ticket
after it ⇒ exit 1; otherwise the plain loop runs; a completed run exits 0. -/
def mainRun (http : Http) (jiraUrl : Str) (flagCRR : Bool) (envCRR : Option Str)
    (commit_message : Str) : RunResult :=
  let change_request_required := flagCRR || CHANGE_REQUEST_REQUIRED envCRR
  let tickets := findall commit_message
  if tickets.isEmpty then ⟨1, []⟩
  else if change_request_required then
    if tickets.length < 2 then ⟨1, []⟩
    else
      let r := loopCR http jiraUrl tickets false
      if r.1 then (if r.2.1 then ⟨0, r.2.2⟩ else ⟨1, r.2.2⟩) else ⟨1, r.2.2⟩
  else
    let r := loopNoCR http jiraUrl tickets
    if r.1 then ⟨0, r.2⟩ else ⟨1, r.2⟩

/-- The JSON body `{"fields": {"status": {"name": s}}}` that the issue
service returns for a ticket whose status name is `s`. -/
def statusBody (s : Str) : Json :=
  .obj [(chars "fields", .obj [(chars "status", .obj [(chars "name", .str s)])])]

/-- A concrete network for test runs: a finite table of URL responses,
defaulting to a connection error for any other URL. -/
def httpTable (entries : List (Str × HttpResult)) : Http :=
  fun url => (entries.lookup url).getD .connError

/-- A ticket passes the check that `main` applies to it: tickets starting
with `"CR-"` are validated against `["Approved"]`, all others against
`valid_statuses`. -/
def ticketPasses (http : Http) (jiraUrl t : Str) : Bool :=
  validate_jira_ticket http jiraUrl t
    (if (chars "CR-").isPrefixOf t then [chars "Approved"] else valid_statuses)

/-- The classification the script applies to a ticket identifier (in
`validate_jira_ticket` and in `main`): `ticket.startswith("CR-")`. -/
def isChangeRequest (t : Str) : Bool := (chars "CR-").isPrefixOf t

/-- The substring of an identifier before its first hyphen (the spec's
notion of the identifier's project key). -/
def beforeFirstHyphen (s : Str) : Str := s.takeWhile (fun c => c != '-')

/-- `re.fullmatch(r"[A-Z]+-\d+", s)`: the shape of every identifier the
extraction pattern can produce (one or more uppercase letters, a hyphen,
one or more digits). -/
def matchesTicketShape (s : Str) : Bool :=
  match s.span isUpperAZ with
  | (u, c :: r2) => !u.isEmpty && (c == '-' && (!r2.isEmpty && r2.all isDigit09))
  | (_, []) => false

/-- The tickets a run of the validation loop actually reaches: every ticket
up to and including the first one that fails its check (all of them when
none fails). -/
def processedTickets (pass : Str → Bool) : List Str → List Str
  | [] => []
  | t :: ts => if pass t then t :: processedTickets pass ts else [t]

example : findall (chars "ABC-123 CR-456") = [chars "ABC-123", chars "CR-456"] := by decide
example : findall (chars "no ticket here 123-ABC") = [] := by decide
example : findall (chars "aABC-123") = [] := by decide
example : findall (chars "ABC-12x y") = [] := by decide
example : findall (chars "CR-1-2") = [chars "CR-1"] := by decide

theorem validate_CR_ignores (http : Http) (jiraUrl t : Str) (vs vs' : List Str)
    (h : (chars "CR-").isPrefixOf t = true) :
    validate_jira_ticket http jiraUrl t vs = validate_jira_ticket http jiraUrl t vs' := by
  unfold validate_jira_ticket
  cases fetchStatusName http jiraUrl t with
  | none => rfl
  | some s => simp [h]

theorem ticketPasses_eq (http : Http) (jiraUrl t : Str) :
    ticketPasses http jiraUrl t = validate_jira_ticket http jiraUrl t valid_statuses := by
  unfold ticketPasses
  cases h : (chars "CR-").isPrefixOf t with
  | true => simp only [if_pos rfl]; exact validate_CR_ignores http jiraUrl t _ _ h
  | false => simp

theorem validate_true_iff (http : Http) (jiraUrl t : Str) (vs : List Str) :
    validate_jira_ticket http jiraUrl t vs = true ↔
      (if (chars "CR-").isPrefixOf t then
        fetchStatusName http jiraUrl t = some (chars "Approved")
      else ∃ s, fetchStatusName http jiraUrl t = some s ∧ s ∈ vs) := by
  unfold validate_jira_ticket
  cases hf : fetchStatusName http jiraUrl t with
  | none =>
    cases h : (chars "CR-").isPrefixOf t <;> simp [h]
  | some s =>
    cases h : (chars "CR-").isPrefixOf t <;> simp [h]

theorem loopNoCR_fst_iff (http : Http) (jiraUrl : Str) (ts : List Str) :
    (loopNoCR http jiraUrl ts).1 = true ↔
      ∀ t ∈ ts, validate_jira_ticket http jiraUrl t valid_statuses = true := by
  induction ts with
  | nil => simp [loopNoCR]
  | cons t ts ih =>
    cases h : validate_jira_ticket http jiraUrl t valid_statuses with
    | true => simp [loopNoCR, h, ih]
    | false => simp [loopNoCR, h]

theorem loopNoCR_snd_of_all (http : Http) (jiraUrl : Str) (ts : List Str)
    (h : ∀ t ∈ ts, validate_jira_ticket http jiraUrl t valid_statuses = true) :
    (loopNoCR http jiraUrl ts).2 = ts.map (ticketUrl jiraUrl) := by
  induction ts with
  | nil => simp [loopNoCR]
  | cons t ts ih =>
    have ht := h t (List.mem_cons_self t ts)
    simp [loopNoCR, ht, ih (fun x hx => h x (List.mem_cons_of_mem t hx))]

theorem ticketPasses_of_CR (http : Http) (jiraUrl t : Str)
    (h : (chars "CR-").isPrefixOf t = true) :
    ticketPasses http jiraUrl t = validate_jira_ticket http jiraUrl t [chars "Approved"] := by
  unfold ticketPasses
  rw [if_pos h]

theorem ticketPasses_of_notCR (http : Http) (jiraUrl t : Str)
    (h : (chars "CR-").isPrefixOf t = false) :
    ticketPasses http jiraUrl t = validate_jira_ticket http jiraUrl t valid_statuses := by
  unfold ticketPasses
  rw [if_neg (by simp [h])]

theorem loopCR_fst_iff (http : Http) (jiraUrl : Str) (ts : List Str) (cf : Bool) :
    (loopCR http jiraUrl ts cf).1 = true ↔
      ∀ t ∈ ts, ticketPasses http jiraUrl t = true := by
  induction ts generalizing cf with
  | nil => simp [loopCR]
  | cons t ts ih =>
    rw [List.forall_mem_cons]
    cases hp : (chars "CR-").isPrefixOf t with
    | true =>
      rw [ticketPasses_of_CR http jiraUrl t hp]
      cases hv : validate_jira_ticket http jiraUrl t [chars "Approved"] with
      | true => simp [loopCR, hp, hv, ih]
      | false => simp [loopCR, hp, hv]
    | false =>
      rw [ticketPasses_of_notCR http jiraUrl t hp]
      cases hv : validate_jira_ticket http jiraUrl t valid_statuses with
      | true => simp [loopCR, hp, hv, ih]
      | false => simp [loopCR, hp, hv]

theorem loopCR_crFound_of_complete (http : Http) (jiraUrl : Str) (ts : List Str) (cf : Bool)
    (h : (loopCR http jiraUrl ts cf).1 = true) :
    (loopCR http jiraUrl ts cf).2.1 = (cf || ts.any (fun t => (chars "CR-").isPrefixOf t)) := by
  induction ts generalizing cf with
  | nil => simp [loopCR]
  | cons t ts ih =>
    cases hp : (chars "CR-").isPrefixOf t with
    | true =>
      cases hv : validate_jira_ticket http jiraUrl t [chars "Approved"] with
      | true =>
        have h' : (loopCR http jiraUrl ts true).1 = true := by
          simpa [loopCR, hp, hv] using h
        simp [loopCR, hp, hv, ih true h']
      | false => simp [loopCR, hp, hv] at h
    | false =>
      cases hv : validate_jira_ticket http jiraUrl t valid_statuses with
      | true =>
        have h' : (loopCR http jiraUrl ts cf).1 = true := by
          simpa [loopCR, hp, hv] using h
        simp [loopCR, hp, hv, ih cf h']
      | false => simp [loopCR, hp, hv] at h

theorem loopCR_snd_of_all (http : Http) (jiraUrl : Str) (ts : List Str) (cf : Bool)
    (h : ∀ t ∈ ts, ticketPasses http jiraUrl t = true) :
    (loopCR http jiraUrl ts cf).2.2 = ts.map (ticketUrl jiraUrl) := by
  induction ts generalizing cf with
  | nil => simp [loopCR]
  | cons t ts ih =>
    have ht := h t (List.mem_cons_self t ts)
    have hrest := fun x hx => h x (List.mem_cons_of_mem t hx)
    cases hp : (chars "CR-").isPrefixOf t with
    | true =>
      have hv : validate_jira_ticket http jiraUrl t [chars "Approved"] = true := by
        rw [← ticketPasses_of_CR http jiraUrl t hp]; exact ht
      simp [loopCR, hp, hv, ih true hrest]
    | false =>
      have hv : validate_jira_ticket http jiraUrl t valid_statuses = true := by
        rw [← ticketPasses_of_notCR http jiraUrl t hp]; exact ht
      simp [loopCR, hp, hv, ih cf hrest]

theorem mainRun_exit0_iff (http : Http) (jiraUrl : Str) (flagCRR : Bool)
    (envCRR : Option Str) (msg : Str) :
    (mainRun http jiraUrl flagCRR envCRR msg).exitCode = 0 ↔
      (findall msg ≠ [] ∧ (∀ t ∈ findall msg, ticketPasses http jiraUrl t = true) ∧
       ((flagCRR || CHANGE_REQUEST_REQUIRED envCRR) = true →
         2 ≤ (findall msg).length ∧
           ∃ t ∈ findall msg, (chars "CR-").isPrefixOf t = true)) := by
  simp only [mainRun]
  cases hE : (findall msg).isEmpty with
  | true =>
    have hnil : findall msg = [] := List.isEmpty_iff.mp hE
    simp [hnil]
  | false =>
    have hne : findall msg ≠ [] := by
      intro hc; rw [hc] at hE; simp at hE
    cases hC : (flagCRR || CHANGE_REQUEST_REQUIRED envCRR) with
    | false =>
      cases hL : (loopNoCR http jiraUrl (findall msg)).1 with
      | true =>
        have hall := (loopNoCR_fst_iff http jiraUrl (findall msg)).mp hL
        simp only [hE, hC, hL, Bool.false_eq_true, if_false, if_true]
        constructor
        · intro _
          exact ⟨hne, fun t ht => by
            rw [ticketPasses_eq]; exact hall t ht, by simp⟩
        · intro _; trivial
      | false =>
        have hnall := hL
        simp only [hE, hC, hL, Bool.false_eq_true, if_false, if_true]
        constructor
        · intro hc; exact absurd hc (by simp)
        · rintro ⟨-, hall, -⟩
          have : (loopNoCR http jiraUrl (findall msg)).1 = true :=
            (loopNoCR_fst_iff http jiraUrl (findall msg)).mpr
              (fun t ht => by rw [← ticketPasses_eq]; exact hall t ht)
          rw [this] at hnall; cases hnall
    | true =>
      by_cases hlen : (findall msg).length < 2
      · have h2 : ¬ (2 ≤ (findall msg).length) := by omega
        simp [hE, hC, hlen, h2]
      · have h2 : 2 ≤ (findall msg).length := by omega
        cases hr1 : (loopCR http jiraUrl (findall msg) false).1 with
        | false =>
          simp only [hE, hC, if_false, if_pos rfl, if_neg hlen, hr1,
            Bool.false_eq_true, if_true]
          constructor
          · intro hc; exact absurd hc (by simp)
          · rintro ⟨-, hall, -⟩
            have : (loopCR http jiraUrl (findall msg) false).1 = true :=
              (loopCR_fst_iff http jiraUrl (findall msg) false).mpr hall
            rw [this] at hr1; cases hr1
        | true =>
          have hall := (loopCR_fst_iff http jiraUrl (findall msg) false).mp hr1
          have hcr := loopCR_crFound_of_complete http jiraUrl (findall msg) false hr1
          cases hA : (findall msg).any (fun t => (chars "CR-").isPrefixOf t) with
          | true =>
            have hfound : (loopCR http jiraUrl (findall msg) false).2.1 = true := by
              rw [hcr, hA]; rfl
            simp only [hE, hC, if_pos rfl, if_neg hlen, hr1, hfound, if_true]
            constructor
            · intro _
              refine ⟨hne, hall, fun _ => ⟨h2, ?_⟩⟩
              obtain ⟨t, ht, hcrt⟩ := List.any_eq_true.mp hA
              exact ⟨t, ht, hcrt⟩
            · intro _; trivial
          | false =>
            have hfound : (loopCR http jiraUrl (findall msg) false).2.1 = false := by
              rw [hcr, hA]; rfl
            simp only [hE, hC, if_pos rfl, if_neg hlen, hr1, hfound,
              Bool.false_eq_true, if_false, if_true]
            constructor
            · intro hc; exact absurd hc (by simp)
            · rintro ⟨-, -, hreq⟩
              obtain ⟨-, t, ht, hcrt⟩ := hreq trivial
              have : (findall msg).any (fun t => (chars "CR-").isPrefixOf t) = true :=
                List.any_eq_true.mpr ⟨t, ht, hcrt⟩
              rw [this] at hA; cases hA

theorem ticketPasses_true_iff (http : Http) (jiraUrl t : Str) :
    ticketPasses http jiraUrl t = true ↔
      (if (chars "CR-").isPrefixOf t then
        fetchStatusName http jiraUrl t = some (chars "Approved")
      else ∃ s, fetchStatusName http jiraUrl t = some s ∧ s ∈ valid_statuses) := by
  cases hp : (chars "CR-").isPrefixOf t with
  | true =>
    rw [ticketPasses_of_CR http jiraUrl t hp, validate_true_iff]
    simp [hp]
  | false =>
    rw [ticketPasses_of_notCR http jiraUrl t hp, validate_true_iff]
    simp [hp]

theorem mainRun_exit_zero_or_one (http : Http) (jiraUrl : Str) (flagCRR : Bool)
    (envCRR : Option Str) (msg : Str) :
    (mainRun http jiraUrl flagCRR envCRR msg).exitCode = 0 ∨
      (mainRun http jiraUrl flagCRR envCRR msg).exitCode = 1 := by
  simp only [mainRun]
  cases hE : (findall msg).isEmpty with
  | true => simp [hE]
  | false =>
    cases hC : (flagCRR || CHANGE_REQUEST_REQUIRED envCRR) with
    | false =>
      cases hL : (loopNoCR http jiraUrl (findall msg)).1 with
      | true => simp [hE, hC, hL]
      | false => simp [hE, hC, hL]
    | true =>
      by_cases hlen : (findall msg).length < 2
      · simp [hE, hC, hlen]
      · cases hr1 : (loopCR http jiraUrl (findall msg) false).1 with
        | false => simp [hE, hC, hlen, hr1]
        | true =>
          cases hb : (loopCR http jiraUrl (findall msg) false).2.1 with
          | true => simp [hE, hC, hlen, hr1, hb]
          | false => simp [hE, hC, hlen, hr1, hb]

theorem mainRun_lookups_of_all (http : Http) (jiraUrl : Str) (flagCRR : Bool)
    (envCRR : Option Str) (msg : Str)
    (hne : findall msg ≠ [])
    (hall : ∀ t ∈ findall msg, ticketPasses http jiraUrl t = true)
    (hlen : (flagCRR || CHANGE_REQUEST_REQUIRED envCRR) = true →
      2 ≤ (findall msg).length) :
    (mainRun http jiraUrl flagCRR envCRR msg).lookups =
      (findall msg).map (ticketUrl jiraUrl) := by
  simp only [mainRun]
  cases hE : (findall msg).isEmpty with
  | true => exact absurd (List.isEmpty_iff.mp hE) hne
  | false =>
    cases hC : (flagCRR || CHANGE_REQUEST_REQUIRED envCRR) with
    | false =>
      have hvall : ∀ t ∈ findall msg,
          validate_jira_ticket http jiraUrl t valid_statuses = true :=
        fun t ht => by rw [← ticketPasses_eq]; exact hall t ht
      have h2 := loopNoCR_snd_of_all http jiraUrl (findall msg) hvall
      cases hL : (loopNoCR http jiraUrl (findall msg)).1 with
      | true => simp [hE, hC, hL, h2]
      | false => simp [hE, hC, hL, h2]
    | true =>
      have hnlt : ¬ (findall msg).length < 2 := by
        have := hlen hC; omega
      have hr1 : (loopCR http jiraUrl (findall msg) false).1 = true :=
        (loopCR_fst_iff http jiraUrl (findall msg) false).mpr hall
      have h2 := loopCR_snd_of_all http jiraUrl (findall msg) false hall
      cases hb : (loopCR http jiraUrl (findall msg) false).2.1 with
      | true => simp [hE, hC, hnlt, hr1, hb, h2]
      | false => simp [hE, hC, hnlt, hr1, hb, h2]

theorem mainRun_exit1_of_failing (http : Http) (jiraUrl : Str) (flagCRR : Bool)
    (envCRR : Option Str) (msg t : Str)
    (ht : t ∈ findall msg) (hbad : ticketPasses http jiraUrl t = false) :
    (mainRun http jiraUrl flagCRR envCRR msg).exitCode = 1 := by
  cases mainRun_exit_zero_or_one http jiraUrl flagCRR envCRR msg with
  | inr h => exact h
  | inl h =>
    obtain ⟨-, hall, -⟩ := (mainRun_exit0_iff http jiraUrl flagCRR envCRR msg).mp h
    rw [hall t ht] at hbad
    cases hbad

/-- C6: for every commit message text containing zero matches of the pattern
`\b[A-Z]+-\d+\b`, the validator rejects with exit code 1 without issuing any
HTTP request to the issue service. -/
theorem C6_no_ticket_rejects_without_network (http : Http) (jiraUrl : Str)
    (flagCRR : Bool) (envCRR : Option Str) (msg : Str)
    (h : findall msg = []) :
    mainRun http jiraUrl flagCRR envCRR msg = ⟨1, []⟩ := by
  simp [mainRun, h]

theorem C6_witness :
    findall (chars "Refactor parser, no ticket 123-abc") = [] ∧
    mainRun (httpTable []) (chars "https://jira.example.com") false none
      (chars "Refactor parser, no ticket 123-abc") = ⟨1, []⟩ :=
  ⟨by decide,
    C6_no_ticket_rejects_without_network (httpTable [])
      (chars "https://jira.example.com") false none
      (chars "Refactor parser, no ticket 123-abc") (by decide)⟩

/-- C5: the claim that a missing `JIRA_URL` is fatal at startup is false on
the code: the module-level check exits only on a missing credential.  With
`JIRA_URL` unset but both credentials present, the startup check does not
fire, while with `JIRA_API_TOKEN` unset it does. -/
theorem C5_counterexample :
    startupExitsFatally none (some (chars "token")) (some (chars "user")) = false ∧
    startupExitsFatally (some (chars "https://jira.example.com")) none
      (some (chars "user")) = true := by
  decide

/-- C5 (amended): the startup check is completely insensitive to `JIRA_URL`;
it is fatal exactly when `JIRA_API_TOKEN` or `JIRA_USERNAME` is unset or
empty. -/
theorem C5_startup_check_ignores_jira_url (u u' tok usr : Option Str) :
    startupExitsFatally u tok usr = startupExitsFatally u' tok usr ∧
    (startupExitsFatally u tok usr = false ↔
      (envTruthy tok = true ∧ envTruthy usr = true)) := by
  refine ⟨rfl, ?_⟩
  unfold startupExitsFatally
  cases envTruthy tok <;> cases envTruthy usr <;> simp

/-- C10: `CHANGE_REQUEST_REQUIRED` parses to true iff its value, lowercased,
is `"true"`, `"1"` or `"t"`; any other value parses to false, and an unset
variable defaults to true. -/
theorem C10_change_request_required_parsing (v : Str) :
    (CHANGE_REQUEST_REQUIRED (some v) = true ↔
      (pyLower v = chars "true" ∨ pyLower v = chars "1" ∨ pyLower v = chars "t")) ∧
    CHANGE_REQUEST_REQUIRED none = true := by
  refine ⟨?_, by decide⟩
  unfold CHANGE_REQUEST_REQUIRED
  simp [Option.getD]

/-- C4: the claim that the active change-request policy demands two distinct
identifiers is false on the code: the same `CR-456` twice gives only one
distinct identifier, yet the run is accepted (exit 0). -/
theorem C4_counterexample :
    (findall (chars "CR-456 CR-456")).dedup.length < 2 ∧
    (mainRun
      (httpTable [(ticketUrl (chars "https://jira.example.com") (chars "CR-456"),
        .response 200 (statusBody (chars "Approved")))])
      (chars "https://jira.example.com") true none
      (chars "CR-456 CR-456")).exitCode = 0 := by
  decide

/-- C4 (amended): with the change-request requirement active, the validator
requires at least two extracted ticket references counted with multiplicity:
fewer than two regex matches mean exit 1 before any lookup, and duplicate
occurrences of one identifier count separately toward the two. -/
theorem C4_two_occurrences_required (http : Http) (jiraUrl : Str) (flagCRR : Bool)
    (envCRR : Option Str) (msg : Str)
    (hcrr : (flagCRR || CHANGE_REQUEST_REQUIRED envCRR) = true)
    (hlen : (findall msg).length < 2) :
    mainRun http jiraUrl flagCRR envCRR msg = ⟨1, []⟩ := by
  simp only [mainRun]
  cases hE : (findall msg).isEmpty with
  | true => simp [hE]
  | false => simp [hE, hcrr, hlen]

theorem C4_witness :
    mainRun (httpTable []) (chars "https://jira.example.com") true none
      (chars "fix ABC-9") = ⟨1, []⟩ :=
  C4_two_occurrences_required (httpTable []) (chars "https://jira.example.com")
    true none (chars "fix ABC-9") (by decide) (by decide)

set_option linter.unusedVariables false in
/-- C2: with the change-request requirement active, a commit message whose
extracted references are exactly `ABC-123` (remote status `"In Progress"`)
and `CR-456` (remote status `"Approved"`) is accepted with exit code 0.
(The hypothesis that the policy is active mirrors the claim; this input is
in fact accepted under either policy setting.) -/
theorem C2_two_ticket_accept (http : Http) (jiraUrl : Str) (flagCRR : Bool)
    (envCRR : Option Str) (msg : Str)
    (hcrr : (flagCRR || CHANGE_REQUEST_REQUIRED envCRR) = true)
    (htick : findall msg = [chars "ABC-123", chars "CR-456"])
    (h1 : fetchStatusName http jiraUrl (chars "ABC-123") = some (chars "In Progress"))
    (h2 : fetchStatusName http jiraUrl (chars "CR-456") = some (chars "Approved")) :
    (mainRun http jiraUrl flagCRR envCRR msg).exitCode = 0 := by
  rw [mainRun_exit0_iff]
  refine ⟨by rw [htick]; simp, ?_, ?_⟩
  · intro t ht
    rw [htick] at ht
    simp only [List.mem_cons, List.not_mem_nil, or_false] at ht
    rcases ht with rfl | rfl
    · rw [ticketPasses_true_iff, if_neg (by decide)]
      exact ⟨chars "In Progress", h1, by decide⟩
    · rw [ticketPasses_true_iff, if_pos (by decide)]
      exact h2
  · intro _
    rw [htick]
    exact ⟨by decide, chars "CR-456", by decide, by decide⟩

theorem C2_witness :
    (mainRun
      (httpTable [(ticketUrl (chars "https://jira.example.com") (chars "ABC-123"),
          .response 200 (statusBody (chars "In Progress"))),
        (ticketUrl (chars "https://jira.example.com") (chars "CR-456"),
          .response 200 (statusBody (chars "Approved")))])
      (chars "https://jira.example.com") false (some (chars "true"))
      (chars "ABC-123 CR-456")).exitCode = 0 :=
  C2_two_ticket_accept _ _ _ _ _ (by decide) (by decide) (by decide) (by decide)

theorem loopNoCR_snd_eq (http : Http) (jiraUrl : Str) (ts : List Str) :
    (loopNoCR http jiraUrl ts).2 =
      (processedTickets (ticketPasses http jiraUrl) ts).map (ticketUrl jiraUrl) := by
  induction ts with
  | nil => simp [loopNoCR, processedTickets]
  | cons t ts ih =>
    cases h : validate_jira_ticket http jiraUrl t valid_statuses with
    | true =>
      have hp : ticketPasses http jiraUrl t = true := by rw [ticketPasses_eq]; exact h
      simp [loopNoCR, h, processedTickets, hp, ih]
    | false =>
      have hp : ticketPasses http jiraUrl t = false := by rw [ticketPasses_eq]; exact h
      simp [loopNoCR, h, processedTickets, hp]

theorem loopCR_snd_eq (http : Http) (jiraUrl : Str) (ts : List Str) (cf : Bool) :
    (loopCR http jiraUrl ts cf).2.2 =
      (processedTickets (ticketPasses http jiraUrl) ts).map (ticketUrl jiraUrl) := by
  induction ts generalizing cf with
  | nil => simp [loopCR, processedTickets]
  | cons t ts ih =>
    cases hp : (chars "CR-").isPrefixOf t with
    | true =>
      cases hv : validate_jira_ticket http jiraUrl t [chars "Approved"] with
      | true =>
        have hq : ticketPasses http jiraUrl t = true := by
          rw [ticketPasses_of_CR http jiraUrl t hp]; exact hv
        simp [loopCR, hp, hv, processedTickets, hq, ih]
      | false =>
        have hq : ticketPasses http jiraUrl t = false := by
          rw [ticketPasses_of_CR http jiraUrl t hp]; exact hv
        simp [loopCR, hp, hv, processedTickets, hq]
    | false =>
      cases hv : validate_jira_ticket http jiraUrl t valid_statuses with
      | true =>
        have hq : ticketPasses http jiraUrl t = true := by
          rw [ticketPasses_of_notCR http jiraUrl t hp]; exact hv
        simp [loopCR, hp, hv, processedTickets, hq, ih]
      | false =>
        have hq : ticketPasses http jiraUrl t = false := by
          rw [ticketPasses_of_notCR http jiraUrl t hp]; exact hv
        simp [loopCR, hp, hv, processedTickets, hq]

/-- C3: the claim that every extracted reference is looked up regardless of
earlier failures is false on the code: with `AAA-1` in status "To Do" (which
fails validation) followed by `BBB-2`, the run requests only the `AAA-1`
URL and never looks up `BBB-2`. -/
theorem C3_counterexample :
    ¬ (∀ t ∈ findall (chars "AAA-1 BBB-2"),
        ticketUrl (chars "https://jira.example.com") t ∈
          (mainRun
            (httpTable [(ticketUrl (chars "https://jira.example.com") (chars "AAA-1"),
                .response 200 (statusBody (chars "To Do"))),
              (ticketUrl (chars "https://jira.example.com") (chars "BBB-2"),
                .response 200 (statusBody (chars "In Progress")))])
            (chars "https://jira.example.com") false (some (chars "false"))
            (chars "AAA-1 BBB-2")).lookups) := by
  decide

/-- C3 (amended): extracted references are looked up sequentially only until
the first failure: the requested URLs are exactly those of the tickets up to
and including the first failing one (so later references are skipped when an
earlier one fails, and all references are looked up when every ticket
passes), no lookup happens at all when no ticket is extracted or when the
change-request policy is active with fewer than two extracted tickets, and
whenever some extracted ticket fails its check the run exits 1. -/
theorem C3_lookups_stop_at_first_failure (http : Http) (jiraUrl : Str)
    (flagCRR : Bool) (envCRR : Option Str) (msg : Str) :
    ((mainRun http jiraUrl flagCRR envCRR msg).lookups =
      (if findall msg = [] then []
       else if (flagCRR || CHANGE_REQUEST_REQUIRED envCRR) = true ∧
           (findall msg).length < 2 then []
       else (processedTickets (ticketPasses http jiraUrl) (findall msg)).map
         (ticketUrl jiraUrl))) ∧
    (∀ t ∈ findall msg, ticketPasses http jiraUrl t = false →
      (mainRun http jiraUrl flagCRR envCRR msg).exitCode = 1) := by
  refine ⟨?_, fun t ht hbad =>
    mainRun_exit1_of_failing http jiraUrl flagCRR envCRR msg t ht hbad⟩
  simp only [mainRun]
  cases hE : (findall msg).isEmpty with
  | true =>
    have hnil : findall msg = [] := List.isEmpty_iff.mp hE
    simp [hnil]
  | false =>
    have hne : findall msg ≠ [] := by
      intro hc; rw [hc] at hE; simp at hE
    cases hC : (flagCRR || CHANGE_REQUEST_REQUIRED envCRR) with
    | false =>
      cases hL : (loopNoCR http jiraUrl (findall msg)).1 with
      | true => simp [hE, hC, hL, hne, loopNoCR_snd_eq]
      | false => simp [hE, hC, hL, hne, loopNoCR_snd_eq]
    | true =>
      by_cases hlen : (findall msg).length < 2
      · simp [hE, hC, hlen, hne]
      · cases hr1 : (loopCR http jiraUrl (findall msg) false).1 with
        | false => simp [hE, hC, hlen, hne, hr1, loopCR_snd_eq]
        | true =>
          cases hb : (loopCR http jiraUrl (findall msg) false).2.1 with
          | true => simp [hE, hC, hlen, hne, hr1, hb, loopCR_snd_eq]
          | false => simp [hE, hC, hlen, hne, hr1, hb, loopCR_snd_eq]

theorem C3_witness :
    (mainRun
      (httpTable [(ticketUrl (chars "https://jira.example.com") (chars "AAA-1"),
          .response 200 (statusBody (chars "In Progress"))),
        (ticketUrl (chars "https://jira.example.com") (chars "BBB-2"),
          .response 200 (statusBody (chars "To Do")))])
      (chars "https://jira.example.com") false (some (chars "false"))
      (chars "AAA-1 BBB-2")).lookups =
      [ticketUrl (chars "https://jira.example.com") (chars "AAA-1"),
       ticketUrl (chars "https://jira.example.com") (chars "BBB-2")] ∧
    (mainRun
      (httpTable [(ticketUrl (chars "https://jira.example.com") (chars "AAA-1"),
          .response 200 (statusBody (chars "In Progress"))),
        (ticketUrl (chars "https://jira.example.com") (chars "BBB-2"),
          .response 200 (statusBody (chars "To Do")))])
      (chars "https://jira.example.com") false (some (chars "false"))
      (chars "AAA-1 BBB-2")).exitCode = 1 :=
  ⟨(C3_lookups_stop_at_first_failure
      (httpTable [(ticketUrl (chars "https://jira.example.com") (chars "AAA-1"),
          .response 200 (statusBody (chars "In Progress"))),
        (ticketUrl (chars "https://jira.example.com") (chars "BBB-2"),
          .response 200 (statusBody (chars "To Do")))])
      (chars "https://jira.example.com") false (some (chars "false"))
      (chars "AAA-1 BBB-2")).1.trans (by decide),
    (C3_lookups_stop_at_first_failure
      (httpTable [(ticketUrl (chars "https://jira.example.com") (chars "AAA-1"),
          .response 200 (statusBody (chars "In Progress"))),
        (ticketUrl (chars "https://jira.example.com") (chars "BBB-2"),
          .response 200 (statusBody (chars "To Do")))])
      (chars "https://jira.example.com") false (some (chars "false"))
      (chars "AAA-1 BBB-2")).2 (chars "BBB-2") (by decide) (by decide)⟩

/-- C1: the claimed equivalence "accept iff every ordinary reference's
status is allowed" is false as stated: for a commit message with no
extracted reference at all, every ordinary reference vacuously has an
allowed status, yet the validator exits 1. -/
theorem C1_counterexample :
    ¬ (((mainRun (httpTable []) (chars "https://jira.example.com") false
          (some (chars "false")) (chars "update the readme")).exitCode = 0) ↔
       (∀ t ∈ findall (chars "update the readme"),
          (chars "CR-").isPrefixOf t = false →
            ∃ s, fetchStatusName (httpTable []) (chars "https://jira.example.com") t
              = some s ∧ s ∈ valid_statuses)) := by
  intro h
  have h0 := h.mpr (by
    intro t ht
    rw [show findall (chars "update the readme") = [] from by decide] at ht
    cases ht)
  have h1 : (mainRun (httpTable []) (chars "https://jira.example.com") false
      (some (chars "false")) (chars "update the readme")).exitCode = 1 := by decide
  rw [h0] at h1
  exact absurd h1 (by decide)

/-- C1 (amended): with the change-request requirement inactive, the validator
accepts (exit 0) iff at least one reference is extracted and every extracted
reference passes: ordinary references must have status in the allowed
ordinary statuses `{"In Progress"}`, and `CR-` references must have status
`"Approved"`.  In particular a single ordinary ticket in "In Progress" gives
exit 0 and one in "To Do" gives exit 1. -/
theorem C1_accept_iff_ordinary_statuses_allowed (http : Http) (jiraUrl msg : Str) :
    (mainRun http jiraUrl false (some (chars "false")) msg).exitCode = 0 ↔
      (findall msg ≠ [] ∧
       ∀ t ∈ findall msg,
         (if (chars "CR-").isPrefixOf t then
           fetchStatusName http jiraUrl t = some (chars "Approved")
         else ∃ s, fetchStatusName http jiraUrl t = some s ∧ s ∈ valid_statuses)) := by
  rw [mainRun_exit0_iff]
  have hC : (false || CHANGE_REQUEST_REQUIRED (some (chars "false"))) = false := by decide
  rw [hC]
  constructor
  · rintro ⟨hne, hall, -⟩
    exact ⟨hne, fun t ht => (ticketPasses_true_iff http jiraUrl t).mp (hall t ht)⟩
  · rintro ⟨hne, hall⟩
    exact ⟨hne, fun t ht => (ticketPasses_true_iff http jiraUrl t).mpr (hall t ht),
      by simp⟩

/-- C7: any external failure while looking up a referenced ticket — a
connection error, a non-200 response (such as 500), or a 200 response whose
body lacks the `fields.status.name` path — makes `validate_jira_ticket`
return false, and when such a ticket is among the extracted references the
run exits 1; the failure is absorbed, never propagated (in this embedding
`validate_jira_ticket` and `mainRun` are total functions). -/
theorem C7_remote_failure_treated_as_invalid (http : Http) (jiraUrl t : Str)
    (vs : List Str) (flagCRR : Bool) (envCRR : Option Str) (msg : Str)
    (hfail : http (ticketUrl jiraUrl t) = .connError ∨
      (∃ code body, http (ticketUrl jiraUrl t) = .response code body ∧ code ≠ 200) ∨
      (∃ body, http (ticketUrl jiraUrl t) = .response 200 body ∧
        ((body.getField (chars "fields")).bind (fun f => f.getField (chars "status"))).bind
          (fun st => (st.getField (chars "name")).bind Json.asStr) = none)) :
    validate_jira_ticket http jiraUrl t vs = false ∧
    (t ∈ findall msg → (mainRun http jiraUrl flagCRR envCRR msg).exitCode = 1) := by
  have hnone : fetchStatusName http jiraUrl t = none := by
    unfold fetchStatusName jira_api_request
    have hurl : apiUrl jiraUrl (chars "issue/" ++ t) = ticketUrl jiraUrl t := rfl
    rw [hurl]
    rcases hfail with h | ⟨code, body, h, hcode⟩ | ⟨body, h, hb⟩
    · rw [h]
    · rw [h]; simp [hcode]
    · rw [h]; simp [hb]
  have hv : ∀ vs' : List Str, validate_jira_ticket http jiraUrl t vs' = false := by
    intro vs'
    unfold validate_jira_ticket
    rw [hnone]
  refine ⟨hv vs, fun ht => ?_⟩
  apply mainRun_exit1_of_failing http jiraUrl flagCRR envCRR msg t ht
  unfold ticketPasses
  exact hv _

theorem C7_witness :
    validate_jira_ticket (httpTable []) (chars "https://jira.example.com")
      (chars "ABC-123") valid_statuses = false ∧
    (mainRun (httpTable []) (chars "https://jira.example.com") false
      (some (chars "false")) (chars "ABC-123")).exitCode = 1 := by
  have h := C7_remote_failure_treated_as_invalid (httpTable [])
    (chars "https://jira.example.com") (chars "ABC-123") valid_statuses false
    (some (chars "false")) (chars "ABC-123") (Or.inl rfl)
  exact ⟨h.1, h.2 (by decide)⟩

/-- C9: for a ticket starting with `"CR-"`, `validate_jira_ticket` ignores
its `valid_statuses` argument and demands status exactly `"Approved"`; hence
even with the change-request requirement inactive, a commit referencing a
`CR-` ticket whose status is anything else (e.g. "In Progress") exits 1. -/
theorem C9_CR_requires_approved_even_when_inactive (http : Http) (jiraUrl t : Str)
    (vs vs' : List Str) (msg : Str)
    (hCR : (chars "CR-").isPrefixOf t = true) :
    (validate_jira_ticket http jiraUrl t vs = validate_jira_ticket http jiraUrl t vs') ∧
    (validate_jira_ticket http jiraUrl t vs = true ↔
      fetchStatusName http jiraUrl t = some (chars "Approved")) ∧
    (∀ s, fetchStatusName http jiraUrl t = some s → s ≠ chars "Approved" →
      t ∈ findall msg →
        (mainRun http jiraUrl false (some (chars "false")) msg).exitCode = 1) := by
  refine ⟨validate_CR_ignores http jiraUrl t vs vs' hCR, ?_, ?_⟩
  · rw [validate_true_iff, if_pos hCR]
  · intro s hs hne ht
    apply mainRun_exit1_of_failing http jiraUrl false (some (chars "false")) msg t ht
    rw [ticketPasses_of_CR http jiraUrl t hCR]
    cases hvb : validate_jira_ticket http jiraUrl t [chars "Approved"] with
    | false => rfl
    | true =>
      have hfa := (validate_true_iff http jiraUrl t [chars "Approved"]).mp hvb
      rw [if_pos hCR, hs] at hfa
      exact absurd (Option.some.inj hfa) hne

theorem C9_witness :
    (mainRun
      (httpTable [(ticketUrl (chars "https://jira.example.com") (chars "CR-9"),
        .response 200 (statusBody (chars "In Progress")))])
      (chars "https://jira.example.com") false (some (chars "false"))
      (chars "CR-9")).exitCode = 1 :=
  (C9_CR_requires_approved_even_when_inactive
    (httpTable [(ticketUrl (chars "https://jira.example.com") (chars "CR-9"),
      .response 200 (statusBody (chars "In Progress")))])
    (chars "https://jira.example.com") (chars "CR-9") valid_statuses
    [chars "Approved"] (chars "CR-9") (by decide)).2.2
    (chars "In Progress") (by decide) (by decide) (by decide)

theorem matchesTicketShape_destruct (s : Str) (h : matchesTicketShape s = true) :
    ∃ ups ds, s = ups ++ '-' :: ds ∧ ups ≠ [] ∧ (∀ c ∈ ups, isUpperAZ c = true) := by
  unfold matchesTicketShape at h
  rw [List.span_eq_take_drop] at h
  cases hd : s.dropWhile isUpperAZ with
  | nil => rw [hd] at h; simp at h
  | cons c r2 =>
    rw [hd] at h
    simp only [Bool.and_eq_true, Bool.not_eq_true', beq_iff_eq] at h
    obtain ⟨hne, hc, -⟩ := h
    refine ⟨s.takeWhile isUpperAZ, r2, ?_, ?_, ?_⟩
    · conv_lhs => rw [← List.takeWhile_append_dropWhile (p := isUpperAZ) (l := s)]
      rw [hd, hc]
    · intro hnil
      rw [hnil] at hne
      simp at hne
    · exact fun c hc => List.mem_takeWhile_imp hc

theorem beforeFirstHyphen_append (ups ds : Str)
    (hup : ∀ c ∈ ups, isUpperAZ c = true) :
    beforeFirstHyphen (ups ++ '-' :: ds) = ups := by
  induction ups with
  | nil => simp [beforeFirstHyphen, List.takeWhile_cons]
  | cons a us ih =>
    have ha : isUpperAZ a = true := hup a (List.mem_cons_self a us)
    have hane : (a != '-') = true := by
      cases hq : a == '-' with
      | false => simp [bne, hq]
      | true =>
        have haeq : a = '-' := by simpa using hq
        rw [haeq] at ha
        exact absurd ha (by decide)
    rw [List.cons_append]
    unfold beforeFirstHyphen
    rw [List.takeWhile_cons, if_pos hane]
    have hrec := ih (fun c hc => hup c (List.mem_cons_of_mem a hc))
    unfold beforeFirstHyphen at hrec
    rw [hrec]

theorem isPrefixOf_CR_iff (ups ds : Str) (hne : ups ≠ [])
    (hup : ∀ c ∈ ups, isUpperAZ c = true) :
    ((chars "CR-").isPrefixOf (ups ++ '-' :: ds) = true ↔ ups = chars "CR") := by
  have hCRl : chars "CR-" = 'C' :: 'R' :: '-' :: [] := rfl
  have hCR2 : chars "CR" = 'C' :: 'R' :: [] := rfl
  match ups, hne with
  | [], hne => exact absurd rfl hne
  | [a], _ =>
    have hRd : ('R' == '-') = false := by decide
    rw [hCRl, hCR2]
    simp [List.isPrefixOf, hRd]
  | [a, b], _ =>
    constructor
    · intro h
      rw [hCRl] at h
      simp only [List.cons_append, List.nil_append, List.isPrefixOf,
        Bool.and_eq_true, beq_iff_eq] at h
      obtain ⟨h1, h2, -⟩ := h
      rw [hCR2, ← h1, ← h2]
    · intro h
      rw [hCR2] at h
      simp only [List.cons.injEq, and_true] at h
      obtain ⟨ha, hb⟩ := h
      subst ha
      subst hb
      rw [hCRl]
      simp [List.isPrefixOf]
  | a :: b :: c :: us, _ =>
    have hc : isUpperAZ c = true := hup c (by simp)
    have hcne : ('-' == c) = false := by
      cases hq : ('-' == c) with
      | false => rfl
      | true =>
        have hceq : '-' = c := by simpa using hq
        rw [← hceq] at hc
        exact absurd hc (by decide)
    constructor
    · intro h
      rw [hCRl] at h
      simp only [List.cons_append, List.isPrefixOf, Bool.and_eq_true] at h
      obtain ⟨-, -, h3, -⟩ := h
      rw [hcne] at h3
      cases h3
    · intro h
      rw [hCR2] at h
      simp at h

/-- C8: every identifier of the extraction pattern's shape `[A-Z]+-\d+` is
classified as a change-request ticket exactly by `startswith("CR-")`, and
for such identifiers starting with `"CR-"` is equivalent to the substring
before the first hyphen being exactly `"CR"`; all other identifiers are
ordinary. -/
theorem C8_CR_classification (t : Str) (h : matchesTicketShape t = true) :
    isChangeRequest t = (chars "CR-").isPrefixOf t ∧
    ((chars "CR-").isPrefixOf t = true ↔ beforeFirstHyphen t = chars "CR") := by
  obtain ⟨ups, ds, rfl, hne, hup⟩ := matchesTicketShape_destruct t h
  refine ⟨rfl, ?_⟩
  rw [beforeFirstHyphen_append ups ds hup]
  exact isPrefixOf_CR_iff ups ds hne hup

theorem C8_witness :
    matchesTicketShape (chars "CR-456") = true ∧
    isChangeRequest (chars "CR-456") = (chars "CR-").isPrefixOf (chars "CR-456") ∧
    ((chars "CR-").isPrefixOf (chars "CR-456") = true ↔
      beforeFirstHyphen (chars "CR-456") = chars "CR") :=
  ⟨by decide, (C8_CR_classification (chars "CR-456") (by decide)).1,
    (C8_CR_classification (chars "CR-456") (by decide)).2⟩
